import Mathlib

/-!
Verification development for the `create-waskit` scaffolding CLI
(`src/bin/waskit.js`).  Each definition is a shallow embedding of the
corresponding JavaScript function; theorems settle the specification
claims about them.
-/
namespace Waskit

/-! ### Option combinator

`oor a b` is `a` unless `a` is `none`, in which case it is `b`.
Used to express "later write wins" when describing file-system contents. -/
def oor {α : Type} (a b : Option α) : Option α :=
  match a with
  | some x => some x
  | none => b

/-! ### File-system model and `nodeCopyDir` (waskit.js lines 329-344)

The file system is modelled as an association list from absolute paths
(lists of path segments) to file contents (lists of bytes).  A write
conses a new entry; lookup takes the first match, so the most recent
write wins.  Directory creation (`fs.mkdir`) has no effect on file
contents and is not tracked. -/
def FS : Type := List (List String × List Nat)

def fsGet (fs : FS) (p : List String) : Option (List Nat) :=
  match fs with
  | [] => none
  | kv :: rest => if kv.1 = p then some kv.2 else fsGet rest p

/-- `fs.copyFile` semantics: overwrite whatever was at `p` before. -/
def fsSet (fs : FS) (p : List String) (c : List Nat) : FS :=
  (p, c) :: fs

/-- A directory listing of a template tree: a chained sequence of entries,
each a regular file (with byte contents) or a subdirectory.  The chaining
mirrors the `for (const entry of entries)` loop order of `nodeCopyDir`. -/
inductive FTree : Type where
  | nil : FTree
  | file (name : String) (content : List Nat) (next : FTree) : FTree
  | dir (name : String) (children : FTree) (next : FTree) : FTree
deriving DecidableEq

/-- Shallow embedding of `nodeCopyDir(src, dest)` (waskit.js lines
329-344): for every entry of the source listing, in order, either
recurse into a subdirectory or copy the file byte-for-byte (overwriting
any existing destination file). -/
def nodeCopyDir (dest : List String) (fs : FS) : FTree → FS
  | .nil => fs
  | .file n c next => nodeCopyDir dest (fsSet fs (dest ++ [n]) c) next
  | .dir n children next => nodeCopyDir dest (nodeCopyDir (dest ++ [n]) fs children) next

/-- The content the copy leaves at path `p`, determined by the tree alone:
scanning the listing, the last entry writing `p` wins. -/
def treeGet (dest : List String) (p : List String) : FTree → Option (List Nat)
  | .nil => none
  | .file n c next =>
      oor (treeGet dest p next) (if dest ++ [n] = p then some c else none)
  | .dir n children next =>
      oor (treeGet dest p next) (treeGet (dest ++ [n]) p children)

/-! ### Manifest mutation (waskit.js lines 122-159)

`package.json` is modelled by the fields the mutation touches: the `name`
string and the two optional dependency maps (association lists from
package key to version string).  `delete obj[k]` on a JS object is
modelled by filtering the key out of the association list. -/
structure PackageJson where
  name : String
  dependencies : Option (List (String × String))
  devDependencies : Option (List (String × String))
deriving DecidableEq

/-- The four keys deleted at waskit.js lines 143-146. -/
def tailwindDepKeys : List String :=
  ["tailwindcss", "@tailwindcss/vite", "postcss", "autoprefixer"]

/-- `delete map[k]` on a parsed JSON object. -/
def deleteKey (m : List (String × String)) (k : String) : List (String × String) :=
  m.filter (fun kv => kv.1 ≠ k)

/-- First-match key lookup in a dependency map. -/
def getKey (m : List (String × String)) (k : String) : Option String :=
  match m with
  | [] => none
  | kv :: rest => if kv.1 = k then some kv.2 else getKey rest k

/-- Shallow embedding of the manifest edit (waskit.js lines 138-148):
set `name` to the project name; then, only when the CSS framework answer
is `"No"` and a `dependencies` map exists, delete the four Tailwind keys
from it.  `devDependencies` is never touched. -/
def updateManifest (projectName : String) (cssFramework : String)
    (pkg : PackageJson) : PackageJson :=
  let pkg1 : PackageJson := { pkg with name := projectName }
  if cssFramework = "No" then
    match pkg1.dependencies with
    | some deps =>
        { pkg1 with dependencies := some (tailwindDepKeys.foldl deleteKey deps) }
    | none => pkg1
  else pkg1

/-- Lookup in an optional dependency map (a missing map has no keys). -/
def optGetKey (m : Option (List (String × String))) (k : String) : Option String :=
  match m with
  | none => none
  | some m => getKey m k

/-! ### Manifest serialization (waskit.js lines 150-159)

The mutated manifest is written back with `JSON.stringify(packageJson,
null, 2)`.  The serializer is modelled here for the manifest's shape (a
top-level object of a string field and optional string-to-string maps),
character by character, exactly as `JSON.stringify` renders it with a
2-space indent: nested lines indented by 2 per depth, fields joined by a
comma and newline, and no trailing newline after the closing brace. -/
def jescapeChar (c : Char) : List Char :=
  if c = '"' then ['\\', '"']
  else if c = '\\' then ['\\', '\\']
  else if c = '\n' then ['\\', 'n']
  else if c = '\r' then ['\\', 'r']
  else if c = '\t' then ['\\', 't']
  else [c]

def jquote (s : String) : List Char :=
  '"' :: (s.data.foldr (fun c acc => jescapeChar c ++ acc) ['"'])

def joinFields (sep : List Char) : List (List Char) → List Char
  | [] => []
  | [x] => x
  | x :: xs => x ++ sep ++ joinFields sep xs

/-- Rendering of a dependency map at nesting depth 1 (inner lines
indented by 4 spaces, closing brace by 2). -/
def serializeDeps (m : List (String × String)) : List Char :=
  match m with
  | [] => ['\x7b', '\x7d']
  | ms =>
      ['\x7b', '\n'] ++
        joinFields [',', '\n']
          (ms.map (fun kv => [' ', ' ', ' ', ' '] ++ jquote kv.1 ++ [':', ' '] ++ jquote kv.2)) ++
        ['\n', ' ', ' ', '\x7d']

/-- The top-level manifest fields in serialization order: `name` first
(always present), then `dependencies` and `devDependencies` when set. -/
def manifestFields (p : PackageJson) : List (List Char) :=
  [[' ', ' '] ++ jquote "name" ++ [':', ' '] ++ jquote p.name] ++
    (match p.dependencies with
     | some m => [[' ', ' '] ++ jquote "dependencies" ++ [':', ' '] ++ serializeDeps m]
     | none => []) ++
    (match p.devDependencies with
     | some m => [[' ', ' '] ++ jquote "devDependencies" ++ [':', ' '] ++ serializeDeps m]
     | none => [])

/-- `JSON.stringify(packageJson, null, 2)` on the manifest shape. -/
def serializeManifest (p : PackageJson) : List Char :=
  ['\x7b', '\n'] ++ joinFields [',', '\n'] (manifestFields p) ++ ['\n', '\x7d']

/-! ### The `class="..."` stripper (waskit.js lines 368-375)

`htmlContent.replace(/class=".*?"/g, "")` is embedded as a single
left-to-right scan over the character list: at each position, if the
non-greedy pattern matches (the literal `class="` followed by the
shortest run of non-terminator characters up to a closing quote), the
match is deleted and scanning resumes after it; otherwise the character
is kept and scanning advances by one.  `.` in a JavaScript regex matches
everything except the four line terminators. -/
def classPat : List Char := ['c', 'l', 'a', 's', 's', '=', '"']

def lineTerminator (c : Char) : Bool :=
  c = '\n' || c = '\r' || c = '\u2028' || c = '\u2029'

/-- Length (including the closing quote) of the shortest `.*?"` match,
or `none` when a line terminator or the end of input intervenes. -/
def scanQuote : List Char → Option Nat
  | [] => none
  | c :: rest =>
      if c = '"' then some 1
      else if lineTerminator c then none
      else (scanQuote rest).map (· + 1)

/-- Attempt the pattern at the head of `cs`; on success return the
remainder of the input after the match. -/
def matchClass (cs : List Char) : Option (List Char) :=
  if classPat.isPrefixOf cs then
    (scanQuote (cs.drop 7)).map (fun n => cs.drop (7 + n))
  else none

/-- Fuel-indexed single pass; the fuel only bounds recursion depth and is
never exhausted when it starts at the input length, since every step
consumes at least one character. -/
def stripClassFuel : Nat → List Char → List Char
  | 0, cs => cs
  | _ + 1, [] => []
  | f + 1, c :: rest =>
      match matchClass (c :: rest) with
      | some after => stripClassFuel f after
      | none => c :: stripClassFuel f rest

/-- `content.replace(/class=".*?"/g, "")`. -/
def stripClassAttrs (cs : List Char) : List Char :=
  stripClassFuel cs.length cs

/-- Whether the pattern matches anywhere in the content. -/
def hasClassAttr : List Char → Bool
  | [] => false
  | c :: rest => (matchClass (c :: rest)).isSome || hasClassAttr rest

/-! ### Coordinator trace model (`createProject`, waskit.js lines 24-271)

`createProject` is a straight-line async function whose observable
behaviour is a sequence of prompts, file-system writes, subprocess
invocations and warnings, ending either in `process.exit` or a normal
return (exit code 0).  It is embedded as a function from the run's
environment (what the file system, the user and the subprocesses answer)
to the emitted event trace paired with the final exit code.
`process.exit(n)` truncates the trace at that point. -/
/-- One observable step of a scaffold run, in source order. -/
inductive Event : Type where
  | promptDestination
  | promptOverwrite
  | promptTemplateChoices
  | mkdirProject
  | copyTemplate (templateId : String)
  | editManifest
  | deleteCssDeps
  | warnNoManifest
  | removeTailwindFiles
  | gitInit
  | gitAdd
  | gitCommit
  | warnGit
  | installBun
  | installNpm
  | warnInstall
  | doneSummary
deriving DecidableEq

/-- The CLI options record built by commander (waskit.js lines 427-435). -/
structure Options : Type where
  force : Bool
  skipInstall : Bool
  git : Bool
  template : Option String
deriving DecidableEq

/-- Everything the run's environment answers: file-system probes, the
interactive prompt answers, and subprocess outcomes. -/
structure Env : Type where
  destExists : Bool
  overwriteAnswer : Bool
  promptLanguage : String
  promptFramework : String
  promptCss : String
  templateDirExists : String → Bool
  manifestExists : Bool
  gitInitOk : Bool
  gitAddOk : Bool
  gitCommitOk : Bool
  bunAvailable : Bool
  bunInstallOk : Bool
  npmInstallOk : Bool

/-- Manifest-edit step (waskit.js lines 122-162): when the copied
manifest exists it is read, edited and written back (with the four CSS
dependency keys deleted only under the `"No"` answer); otherwise a
warning is printed. -/
def mutatePhase (env : Env) (css : String) : List Event :=
  if env.manifestExists then
    [.editManifest] ++ (if css = "No" then [.deleteCssDeps] else [])
  else [.warnNoManifest]

/-- Git phase (waskit.js lines 175-214): init, stage, commit in strict
sequence; the first failing step warns and skips the rest. -/
def gitPhase (env : Env) : List Event :=
  [.gitInit] ++
    (if env.gitInitOk then
      [.gitAdd] ++
        (if env.gitAddOk then
          [.gitCommit] ++ (if env.gitCommitOk then [] else [.warnGit])
        else [.warnGit])
    else [.warnGit])

/-- The npm fallback (waskit.js lines 239-254): one npm attempt; a
nonzero exit is reported as a non-fatal warning. -/
def npmFallback (env : Env) : List Event :=
  [.installNpm] ++ (if env.npmInstallOk then [] else [.warnInstall])

/-- Install phase (waskit.js lines 217-258): probe for bun; when the
probe succeeds, run `bun install`; a probe failure or a nonzero bun exit
falls through to exactly one npm attempt. -/
def installPhase (env : Env) : List Event :=
  if env.bunAvailable then
    [.installBun] ++ (if env.bunInstallOk then [] else npmFallback env)
  else npmFallback env

/-- JavaScript `template.split("-")` (single-character separator). -/
def splitDash (cs : List Char) : List (List Char) :=
  match cs with
  | [] => [[]]
  | c :: rest =>
      let r := splitDash rest
      if c = '-' then [] :: r
      else
        match r with
        | [] => [[c]]
        | s :: ss => (c :: s) :: ss

/-- The part of `createProject` after the template id and CSS answer are
fixed (waskit.js lines 102-266): resolve the template directory (exit 1
when missing), create the project directory when absent, copy the
template, edit the manifest, run the Tailwind removal when declined,
then the optional git and install phases, and print the summary. -/
def afterTemplate (env : Env) (opts : Options) (pre : List Event)
    (template css : String) : List Event × Nat :=
  if !env.templateDirExists template then (pre, 1)
  else
    (pre ++
      (if env.destExists then [] else [.mkdirProject]) ++
      [.copyTemplate template] ++
      mutatePhase env css ++
      (if css = "No" then [.removeTailwindFiles] else []) ++
      (if opts.git then gitPhase env else []) ++
      (if opts.skipInstall then [] else installPhase env) ++
      [.doneSummary], 0)

/-- The overwrite confirmation (waskit.js lines 32-43), issued exactly
when the destination exists and `--force` was not given. -/
def preEvents (env : Env) (opts : Options) : List Event :=
  if env.destExists && !opts.force then [.promptOverwrite] else []

/-- Shallow embedding of `createProject(projectDirectory, options)`
(waskit.js lines 24-271).  The overwrite conflict check (lines 32-48)
runs first; a declined overwrite exits 0.  Then the template id and CSS
answer are taken from `--template` (CSS assumed included, lines 53-65)
or from the interactive prompts (lines 66-100), and the run continues
with `afterTemplate`. -/
def createProject (env : Env) (opts : Options) : List Event × Nat :=
  if env.destExists && !opts.force && !env.overwriteAnswer then (preEvents env opts, 0)
  else
    match opts.template with
    | some t =>
        if (splitDash t.data).length ≠ 2 then (preEvents env opts, 1)
        else afterTemplate env opts (preEvents env opts) t "Yes"
    | none =>
        afterTemplate env opts (preEvents env opts ++ [.promptTemplateChoices])
          (env.promptFramework.toLower ++ "-" ++ env.promptLanguage.toLower)
          env.promptCss

/-- Shallow embedding of the CLI action (waskit.js lines 436-448): an
absent positional argument selects the current directory `"."` and
forces the default template; otherwise the given directory is used and
the template defaults when not supplied.  The returned string is the
`projectDirectory` passed to `createProject`; no destination prompt
exists on this path. -/
def programAction (env : Env) (projectDirectory : Option String)
    (opts : Options) : String × (List Event × Nat) :=
  match projectDirectory with
  | none => (".", createProject env { opts with template := some "react-javascript" })
  | some dir =>
      (dir, createProject env { opts with template := some (opts.template.getD "react-javascript") })

/-- Events that change the file system or run a mutating subprocess. -/
def isWriteEvent : Event → Bool
  | .mkdirProject | .copyTemplate _ | .editManifest | .deleteCssDeps
  | .removeTailwindFiles | .gitInit | .gitAdd | .gitCommit
  | .installBun | .installNpm => true
  | _ => false

/-- A fully specified sample environment for concrete runs: fresh
destination, all prompts answered with the defaults, every template
directory present, all subprocesses succeeding. -/
def baseEnv : Env where
  destExists := false
  overwriteAnswer := true
  promptLanguage := "JavaScript"
  promptFramework := "React"
  promptCss := "Yes"
  templateDirExists := fun _ => true
  manifestExists := true
  gitInitOk := true
  gitAddOk := true
  gitCommitOk := true
  bunAvailable := true
  bunInstallOk := true
  npmInstallOk := true

/-- Sample options: no flag given. -/
def baseOpts : Options where
  force := false
  skipInstall := false
  git := false
  template := none

/-! ### Concrete sample manifests -/
/-- A manifest carrying the CSS framework in `devDependencies` only. -/
def pkgDevTailwind : PackageJson where
  name := "old"
  dependencies := none
  devDependencies := some [("tailwindcss", "4.0.0")]

/-- A manifest carrying the CSS framework in `dependencies`. -/
def pkgDepTailwind : PackageJson where
  name := "old"
  dependencies := some [("tailwindcss", "4.0.0")]
  devDependencies := none

/-- A minimal manifest with only a name. -/
def pkgPlain : PackageJson where
  name := "my-app"
  dependencies := none
  devDependencies := none

/-- The conflict-then-missing-template environment: the destination
exists and no template directory exists. -/
def envConflictNoTemplate : Env :=
  { baseEnv with destExists := true, templateDirExists := fun _ => false }

/-- Destination exists and the user declines the overwrite. -/
def envDecline : Env :=
  { baseEnv with destExists := true, overwriteAnswer := false }

/-- Bun unavailable and npm failing. -/
def envNoBun : Env :=
  { baseEnv with bunAvailable := false, npmInstallOk := false }

/-- Options with the default template selected explicitly. -/
def optsTpl : Options :=
  { baseOpts with template := some "react-javascript" }

/-! ### Theorems -/

@[simp] theorem oor_none_left {α : Type} (b : Option α) : oor none b = b := rfl

@[simp] theorem oor_some_left {α : Type} (x : α) (b : Option α) :
    oor (some x) b = some x := rfl

theorem oor_assoc {α : Type} (a b c : Option α) :
    oor (oor a b) c = oor a (oor b c) := by
  cases a <;> rfl

@[simp] theorem fsGet_fsSet (fs : FS) (p q : List String) (c : List Nat) :
    fsGet (fsSet fs p c) q = if p = q then some c else fsGet fs q := rfl

/-- After a copy, the content at any path is whatever the tree wrote there,
falling back to the pre-existing content. -/
theorem fsGet_nodeCopyDir (t : FTree) (dest p : List String) (fs : FS) :
    fsGet (nodeCopyDir dest fs t) p = oor (treeGet dest p t) (fsGet fs p) := by
  induction t generalizing dest fs with
  | nil => simp [nodeCopyDir, treeGet]
  | file n c next ih =>
      simp only [nodeCopyDir, treeGet, ih, fsGet_fsSet]
      rw [oor_assoc]
      by_cases h : dest ++ [n] = p <;> simp [h]
  | dir n children next ihc ihn =>
      simp only [nodeCopyDir, treeGet, ihn, ihc]
      rw [oor_assoc]

theorem getKey_deleteKey_self (m : List (String × String)) (k : String) :
    getKey (deleteKey m k) k = none := by
  induction m with
  | nil => rfl
  | cons kv rest ih =>
      by_cases h : kv.1 = k
      · simpa [deleteKey, h] using ih
      · simpa [deleteKey, getKey, h] using ih

theorem getKey_deleteKey_none (m : List (String × String)) (k k' : String)
    (h : getKey m k = none) : getKey (deleteKey m k') k = none := by
  induction m with
  | nil => rfl
  | cons kv rest ih =>
      by_cases h1 : kv.1 = k
      · simp [getKey, h1] at h
      · simp only [getKey, h1, if_neg] at h
        by_cases h2 : kv.1 = k'
        · simpa [deleteKey, h2] using ih h
        · simpa [deleteKey, getKey, h1, h2] using ih h

theorem getKey_foldl_deleteKey_none (ks : List String)
    (m : List (String × String)) (k : String) (h : getKey m k = none) :
    getKey (ks.foldl deleteKey m) k = none := by
  induction ks generalizing m with
  | nil => exact h
  | cons k0 rest ih => exact ih _ (getKey_deleteKey_none m k k0 h)

theorem getKey_foldl_deleteKey_mem (ks : List String)
    (m : List (String × String)) (k : String) (h : k ∈ ks) :
    getKey (ks.foldl deleteKey m) k = none := by
  induction ks generalizing m with
  | nil => cases h
  | cons k0 rest ih =>
      rcases List.mem_cons.mp h with h0 | h0
      · subst h0
        by_cases hr : k ∈ rest
        · exact ih _ hr
        · exact getKey_foldl_deleteKey_none rest _ k (getKey_deleteKey_self m k)
      · exact ih _ h0

theorem serializeManifest_getLast (p : PackageJson) :
    (serializeManifest p).getLast? = some '\x7d' := by
  have h : serializeManifest p =
      (['\x7b', '\n'] ++ joinFields [',', '\n'] (manifestFields p) ++ ['\n']) ++ ['\x7d'] := by
    simp [serializeManifest]
  rw [h, List.getLast?_concat]

theorem scanQuote_pos (l : List Char) (n : Nat) (h : scanQuote l = some n) :
    1 ≤ n := by
  induction l generalizing n with
  | nil => simp [scanQuote] at h
  | cons c rest ih =>
      by_cases hq : c = '"'
      · simp [scanQuote, hq] at h
        omega
      · by_cases ht : lineTerminator c = true
        · simp [scanQuote, hq, ht] at h
        · simp only [scanQuote, hq, if_neg, ht, Bool.not_eq_true, if_false,
            Option.map_eq_some'] at h
          obtain ⟨m, hm, rfl⟩ := h
          omega

theorem matchClass_length (cs after : List Char) (h : matchClass cs = some after) :
    after.length + 1 ≤ cs.length := by
  unfold matchClass at h
  by_cases hp : classPat.isPrefixOf cs
  · simp only [hp, if_true, Option.map_eq_some'] at h
    obtain ⟨n, hn, rfl⟩ := h
    have h1 : 1 ≤ n := scanQuote_pos _ _ hn
    have h7 : 7 ≤ cs.length := by
      have := List.IsPrefix.length_le (List.isPrefixOf_iff_prefix.mp hp)
      simpa [classPat] using this
    simp only [List.length_drop]
    omega
  · simp [hp] at h

theorem stripClassFuel_congr (f g : Nat) (cs : List Char)
    (hf : cs.length ≤ f) (hg : cs.length ≤ g) :
    stripClassFuel f cs = stripClassFuel g cs := by
  induction f generalizing g cs with
  | zero =>
      have hnil : cs = [] := List.length_eq_zero.mp (Nat.le_zero.mp hf)
      subst hnil
      cases g <;> rfl
  | succ f ih =>
      cases cs with
      | nil => cases g <;> rfl
      | cons c rest =>
          cases g with
          | zero => simp at hg
          | succ g =>
              cases hm : matchClass (c :: rest) with
              | some after =>
                  have hl := matchClass_length _ _ hm
                  simp only [List.length_cons] at hf hg hl
                  simp only [stripClassFuel, hm]
                  exact ih _ _ (by omega) (by omega)
              | none =>
                  simp only [List.length_cons] at hf hg
                  simp only [stripClassFuel, hm]
                  exact congrArg (c :: ·) (ih _ _ (by omega) (by omega))

theorem stripClassAttrs_of_no_match (cs : List Char)
    (h : hasClassAttr cs = false) : stripClassAttrs cs = cs := by
  induction cs with
  | nil => rfl
  | cons c rest ih =>
      simp only [hasClassAttr, Bool.or_eq_false_iff] at h
      obtain ⟨h1, h2⟩ := h
      have hm : matchClass (c :: rest) = none := by
        cases hmm : matchClass (c :: rest) with
        | none => rfl
        | some a => rw [hmm] at h1; simp at h1
      simp only [stripClassAttrs, List.length_cons, stripClassFuel, hm]
      exact congrArg (c :: ·) (ih h2)

theorem scanQuote_append_quote (val rest : List Char)
    (h : ∀ c ∈ val, c ≠ '"' ∧ lineTerminator c = false) :
    scanQuote (val ++ '"' :: rest) = some (val.length + 1) := by
  induction val with
  | nil => simp [scanQuote]
  | cons c v ih =>
      have hc := h c (List.mem_cons_self c v)
      have hv : ∀ x ∈ v, x ≠ '"' ∧ lineTerminator x = false :=
        fun x hx => h x (List.mem_cons_of_mem c hx)
      simp only [List.cons_append, scanQuote]
      rw [if_neg hc.1, hc.2]
      simp [ih hv]

theorem matchClass_head (val rest : List Char)
    (h : ∀ c ∈ val, c ≠ '"' ∧ lineTerminator c = false) :
    matchClass (classPat ++ val ++ '"' :: rest) = some rest := by
  have hcons : classPat ++ val ++ '"' :: rest = classPat ++ (val ++ '"' :: rest) :=
    List.append_assoc _ _ _
  rw [hcons]
  have hpre : classPat.isPrefixOf (classPat ++ (val ++ '"' :: rest)) = true :=
    List.isPrefixOf_iff_prefix.mpr ⟨val ++ '"' :: rest, rfl⟩
  unfold matchClass
  rw [hpre]
  simp only [if_true]
  have hd7 : (classPat ++ (val ++ '"' :: rest)).drop 7 = val ++ '"' :: rest :=
    List.drop_left' (by simp [classPat])
  rw [hd7, scanQuote_append_quote val rest h, Option.map_some']
  congr 1
  have hassoc : classPat ++ (val ++ '"' :: rest) = (classPat ++ val ++ ['"']) ++ rest := by
    simp
  rw [hassoc]
  exact List.drop_left' (by (simp [classPat]; omega))

theorem stripClassAttrs_strips (val rest : List Char)
    (h : ∀ c ∈ val, c ≠ '"' ∧ lineTerminator c = false) :
    stripClassAttrs (classPat ++ val ++ '"' :: rest) = stripClassAttrs rest := by
  have hm : matchClass (classPat ++ val ++ '"' :: rest) = some rest :=
    matchClass_head val rest h
  have hlen : (classPat ++ val ++ '"' :: rest).length = val.length + rest.length + 8 := by
    (simp [classPat]; omega)
  have hcons : classPat ++ val ++ '"' :: rest =
      'c' :: ('l' :: 'a' :: 's' :: 's' :: '=' :: '"' :: (val ++ '"' :: rest)) := by
    simp [classPat]
  unfold stripClassAttrs
  rw [hlen]
  have h8 : val.length + rest.length + 8 = val.length + rest.length + 7 + 1 := by omega
  have hstep : stripClassFuel (val.length + rest.length + 7 + 1)
      (classPat ++ val ++ '"' :: rest) =
      stripClassFuel (val.length + rest.length + 7) rest := by
    rw [hcons]
    simp only [stripClassFuel]
    rw [← hcons, hm]
  rw [h8, hstep]
  exact stripClassFuel_congr _ _ rest (by omega) (by omega)

/-! ### Helper lemmas about the trace model -/
theorem countP_npm_preEvents (env : Env) (opts : Options) :
    ((preEvents env opts).countP fun e => e = Event.installNpm) = 0 := by
  unfold preEvents
  split <;> decide

theorem countP_npm_mutatePhase (env : Env) (css : String) :
    ((mutatePhase env css).countP fun e => e = Event.installNpm) = 0 := by
  unfold mutatePhase
  split
  · split <;> decide
  · decide

theorem countP_npm_gitPhase (env : Env) :
    ((gitPhase env).countP fun e => e = Event.installNpm) = 0 := by
  unfold gitPhase
  split
  · split
    · split <;> decide
    · decide
  · decide

theorem countP_npm_installPhase (env : Env)
    (h : env.bunAvailable = false ∨ env.bunInstallOk = false) :
    ((installPhase env).countP fun e => e = Event.installNpm) = 1 := by
  unfold installPhase npmFallback
  revert h
  cases hb : env.bunAvailable <;> cases hbi : env.bunInstallOk <;>
    cases hn : env.npmInstallOk <;> intro h <;>
    first
      | decide
      | (rcases h with h | h <;> simp at h)

theorem warnInstall_mem_installPhase (env : Env)
    (h : env.bunAvailable = false ∨ env.bunInstallOk = false)
    (hn : env.npmInstallOk = false) :
    Event.warnInstall ∈ installPhase env := by
  unfold installPhase npmFallback
  revert h
  rw [hn]
  cases hb : env.bunAvailable <;> cases hbi : env.bunInstallOk <;> intro h <;>
    first
      | decide
      | (rcases h with h | h <;> simp at h)

theorem afterTemplate_head (env : Env) (opts : Options) (rest : List Event)
    (t css : String) :
    (afterTemplate env opts (.promptOverwrite :: rest) t css).1.head? =
      some .promptOverwrite := by
  unfold afterTemplate
  split <;> simp [List.cons_append]

theorem all_pd_mutatePhase (env : Env) (css : String) :
    ((mutatePhase env css).all fun e => !(e = Event.promptDestination)) = true := by
  unfold mutatePhase
  split
  · split <;> decide
  · decide

theorem all_pd_gitPhase (env : Env) :
    ((gitPhase env).all fun e => !(e = Event.promptDestination)) = true := by
  unfold gitPhase
  split
  · split
    · split <;> decide
    · decide
  · decide

theorem all_pd_installPhase (env : Env) :
    ((installPhase env).all fun e => !(e = Event.promptDestination)) = true := by
  unfold installPhase npmFallback
  split
  · split
    · decide
    · split <;> decide
  · split <;> decide

theorem all_pd_afterTemplate (env : Env) (opts : Options) (pre : List Event)
    (t css : String)
    (hpre : (pre.all fun e => !(e = Event.promptDestination)) = true) :
    ((afterTemplate env opts pre t css).1.all
      fun e => !(e = Event.promptDestination)) = true := by
  unfold afterTemplate
  split
  · exact hpre
  · simp only [List.all_append, Bool.and_eq_true]
    refine ⟨⟨⟨⟨⟨⟨⟨hpre, ?_⟩, ?_⟩, ?_⟩, ?_⟩, ?_⟩, ?_⟩, ?_⟩
    · split <;> decide
    · simp
    · exact all_pd_mutatePhase env css
    · split <;> decide
    · split
      · exact all_pd_gitPhase env
      · decide
    · split
      · decide
      · exact all_pd_installPhase env
    · decide

theorem all_pd_createProject (env : Env) (opts : Options) (t : String) :
    ((createProject env { opts with template := some t }).1.all
      fun e => !(e = Event.promptDestination)) = true := by
  have hpre : ((preEvents env { opts with template := some t }).all
      fun e => !(e = Event.promptDestination)) = true := by
    unfold preEvents
    split <;> decide
  unfold createProject
  dsimp only
  split
  · exact hpre
  · split
    · exact hpre
    · exact all_pd_afterTemplate _ _ _ _ _ hpre

theorem all_css_gitPhase (env : Env) :
    ((gitPhase env).all
      fun e => !(e = Event.deleteCssDeps || e = Event.removeTailwindFiles)) = true := by
  unfold gitPhase
  split
  · split
    · split <;> decide
    · decide
  · decide

theorem all_css_installPhase (env : Env) :
    ((installPhase env).all
      fun e => !(e = Event.deleteCssDeps || e = Event.removeTailwindFiles)) = true := by
  unfold installPhase npmFallback
  split
  · split
    · decide
    · split <;> decide
  · split <;> decide

theorem all_css_afterTemplate (env : Env) (opts : Options) (pre : List Event)
    (t : String)
    (hpre : (pre.all
      fun e => !(e = Event.deleteCssDeps || e = Event.removeTailwindFiles)) = true) :
    ((afterTemplate env opts pre t "Yes").1.all
      fun e => !(e = Event.deleteCssDeps || e = Event.removeTailwindFiles)) = true := by
  unfold afterTemplate
  split
  · exact hpre
  · simp only [List.all_append, Bool.and_eq_true]
    refine ⟨⟨⟨⟨⟨⟨⟨hpre, ?_⟩, ?_⟩, ?_⟩, ?_⟩, ?_⟩, ?_⟩, ?_⟩
    · split <;> decide
    · simp
    · unfold mutatePhase
      split <;> decide
    · decide
    · split
      · exact all_css_gitPhase env
      · decide
    · split
      · decide
      · exact all_css_installPhase env
    · decide

theorem all_css_createProject (env : Env) (opts : Options) (t : String) :
    ((createProject env { opts with template := some t }).1.all
      fun e => !(e = Event.deleteCssDeps || e = Event.removeTailwindFiles)) = true := by
  have hpre : ((preEvents env { opts with template := some t }).all
      fun e => !(e = Event.deleteCssDeps || e = Event.removeTailwindFiles)) = true := by
    unfold preEvents
    split <;> decide
  unfold createProject
  dsimp only
  split
  · exact hpre
  · split
    · exact hpre
    · exact all_css_afterTemplate _ _ _ _ hpre

/-! ### Claim theorems -/
/-- C1, counterexample: the manifest edit deletes the configured CSS keys
only from `dependencies` (waskit.js lines 142-147), never from
`devDependencies`.  A manifest carrying `tailwindcss` in
`devDependencies` still carries it after the edit with CSS declined,
refuting "absent from both the dependencies map and the devDependencies
map". -/
theorem C1_counterexample :
    optGetKey (updateManifest "my-app" "No" pkgDevTailwind).devDependencies
      "tailwindcss" = some "4.0.0" := by
  decide

/-- C1 (amended): after the manifest edit with the CSS framework
declined, the `name` field equals the project name and every key of the
configured CSS-framework dependency list is absent from the
`dependencies` map; the `devDependencies` map is left untouched. -/
theorem C1_manifest_edit (projectName : String) (pkg : PackageJson) (k : String)
    (hk : k ∈ tailwindDepKeys) :
    (updateManifest projectName "No" pkg).name = projectName ∧
      optGetKey (updateManifest projectName "No" pkg).dependencies k = none ∧
      (updateManifest projectName "No" pkg).devDependencies = pkg.devDependencies := by
  unfold updateManifest
  cases hd : pkg.dependencies with
  | none => simp [optGetKey, hd]
  | some deps =>
      refine ⟨?_, ?_, ?_⟩ <;>
        simp [optGetKey, hd, getKey_foldl_deleteKey_mem _ _ _ hk]

/-- Witness for C1 at a concrete manifest. -/
theorem C1_manifest_edit_witness :
    ("tailwindcss" : String) ∈ tailwindDepKeys ∧
      ((updateManifest "my-app" "No" pkgDepTailwind).name = "my-app" ∧
        optGetKey (updateManifest "my-app" "No" pkgDepTailwind).dependencies
          "tailwindcss" = none ∧
        (updateManifest "my-app" "No" pkgDepTailwind).devDependencies =
          pkgDepTailwind.devDependencies) :=
  ⟨by decide, C1_manifest_edit "my-app" pkgDepTailwind "tailwindcss" (by decide)⟩

/-- C4, counterexample: the single-pass removal of `class="..."` can
leave (re-assemble) a `class="..."` occurrence: on
`clasclass="s"s="a"` the match `class="s"` is deleted and the remaining
characters form `class="a"`. -/
theorem C4_counterexample :
    stripClassAttrs ("clasclass=\"s\"s=\"a\"").data = ("class=\"a\"").data ∧
      hasClassAttr (stripClassAttrs ("clasclass=\"s\"s=\"a\"").data) = true := by
  decide

/-- C4 (amended): the rewrite is a single left-to-right pass: each
non-greedy `class="..."` occurrence present in the input is deleted, and
content with no occurrence is left untouched; but the pass is not
iterated, so the result may again contain `class="..."` substrings
formed from the remaining characters. -/
theorem C4_single_pass_strip (cs val rest : List Char)
    (h1 : hasClassAttr cs = false)
    (h2 : ∀ c ∈ val, c ≠ '"' ∧ lineTerminator c = false) :
    stripClassAttrs cs = cs ∧
      stripClassAttrs (classPat ++ val ++ '"' :: rest) = stripClassAttrs rest :=
  ⟨stripClassAttrs_of_no_match cs h1, stripClassAttrs_strips val rest h2⟩

/-- Witness for C4 at concrete content. -/
theorem C4_single_pass_strip_witness :
    hasClassAttr ("<p>").data = false ∧
      (∀ c ∈ ("btn red").data, c ≠ '"' ∧ lineTerminator c = false) ∧
      (stripClassAttrs ("<p>").data = ("<p>").data ∧
        stripClassAttrs (classPat ++ ("btn red").data ++ '"' :: ("<b>").data) =
          stripClassAttrs ("<b>").data) :=
  ⟨by decide, by decide,
    C4_single_pass_strip ("<p>").data ("btn red").data ("<b>").data
      (by decide) (by decide)⟩

/-- C5, counterexample: `JSON.stringify(packageJson, null, 2)` uses
2-space indentation but emits no trailing newline: the serialized
manifest ends at the closing brace. -/
theorem C5_counterexample :
    serializeManifest pkgPlain =
        ['\x7b', '\n', ' ', ' ', '"', 'n', 'a', 'm', 'e', '"', ':', ' ',
          '"', 'm', 'y', '-', 'a', 'p', 'p', '"', '\n', '\x7d'] ∧
      (serializeManifest pkgPlain).getLast? ≠ some '\n' := by
  decide

/-- C5 (amended): every re-serialized manifest is written with stable
2-space indentation but WITHOUT a trailing newline: its last character
is always the closing brace. -/
theorem C5_no_trailing_newline (p : PackageJson) :
    (serializeManifest p).getLast? = some '\x7d' := by
  have h : serializeManifest p =
      (['\x7b', '\n'] ++ joinFields [',', '\n'] (manifestFields p) ++ ['\n']) ++ ['\x7d'] := by
    simp [serializeManifest]
  rw [h, List.getLast?_concat]

/-- C7, counterexample: the copy routine performs no gitignore rename: a
template file named `gitignore` is materialized under that exact name
and no `.gitignore` entry is created. -/
theorem C7_counterexample :
    fsGet (nodeCopyDir [] ([] : FS) (FTree.file "gitignore" [103] FTree.nil))
        ["gitignore"] = some [103] ∧
      fsGet (nodeCopyDir [] ([] : FS) (FTree.file "gitignore" [103] FTree.nil))
        [".gitignore"] = none := by
  decide

/-- C7 (amended): after the template tree is copied, every file keeps
its original name; in particular a template `gitignore` file stays
`gitignore` and the copy never touches a `.gitignore` path. -/
theorem C7_no_gitignore_rename (fs : FS) (c : List Nat) :
    fsGet (nodeCopyDir [] fs (FTree.file "gitignore" c FTree.nil)) ["gitignore"] = some c ∧
      fsGet (nodeCopyDir [] fs (FTree.file "gitignore" c FTree.nil)) [".gitignore"] =
        fsGet fs [".gitignore"] := by
  constructor
  · rw [fsGet_nodeCopyDir]
    simp [treeGet, oor]
  · rw [fsGet_nodeCopyDir]
    simp [treeGet, oor]

/-- C8: the copy is additive and overwriting, and re-copying the same
tree onto the same destination is idempotent: every file the tree writes
has the same (tree-determined) content after one copy and after two. -/
theorem C8_copy_idempotent (t : FTree) (dest : List String) (fs : FS)
    (p : List String) (c : List Nat) (h : treeGet dest p t = some c) :
    fsGet (nodeCopyDir dest (nodeCopyDir dest fs t) t) p = some c ∧
      fsGet (nodeCopyDir dest fs t) p = some c := by
  constructor <;> rw [fsGet_nodeCopyDir, h] <;> rfl

/-- Witness for C8 at a concrete one-file tree. -/
theorem C8_copy_idempotent_witness :
    treeGet [] ["a"] (FTree.file "a" [1] FTree.nil) = some [1] ∧
      (fsGet (nodeCopyDir [] (nodeCopyDir [] ([] : FS) (FTree.file "a" [1] FTree.nil))
          (FTree.file "a" [1] FTree.nil)) ["a"] = some [1] ∧
        fsGet (nodeCopyDir [] ([] : FS) (FTree.file "a" [1] FTree.nil)) ["a"] = some [1]) :=
  ⟨by decide, C8_copy_idempotent _ _ _ _ _ (by decide)⟩

/-- C2, counterexample: with an existing destination, `force=false` and a
nonexistent template, the run issues the overwrite prompt FIRST and only
then aborts with exit code 1: the conflict check precedes template
resolution, refuting "aborts before any overwrite-confirmation prompt is
issued". -/
theorem C2_counterexample :
    createProject envConflictNoTemplate { baseOpts with template := some "foo-bar" } =
      ([.promptOverwrite], 1) := by
  decide

/-- C2 (amended): the coordinator's order is ConflictCheck then
Resolving: with an existing destination and `force=false` the overwrite
prompt is the first observable step; a nonexistent template still aborts
with exit code 1 before any file write or mutating subprocess. -/
theorem C2_conflict_check_precedes_resolution (env : Env) (opts : Options)
    (hD : env.destExists = true) (hF : opts.force = false)
    (hA : env.overwriteAnswer = true)
    (hT : ∀ s, env.templateDirExists s = false) :
    (createProject env opts).1.head? = some .promptOverwrite ∧
      ((createProject env opts).1.all fun e => !isWriteEvent e) = true ∧
      (createProject env opts).2 = 1 := by
  have hpre : preEvents env opts = [.promptOverwrite] := by
    simp [preEvents, hD, hF]
  cases htpl : opts.template with
  | some t =>
      by_cases hfmt : (splitDash t.data).length ≠ 2
      · simp [createProject, htpl, hfmt, hA, hpre, isWriteEvent]
      · simp [createProject, htpl, hfmt, hA, hpre, afterTemplate, hT, isWriteEvent]
  | none =>
      simp [createProject, htpl, hA, hpre, afterTemplate, hT, isWriteEvent]

/-- Witness for C2 at the concrete conflict environment. -/
theorem C2_conflict_check_precedes_resolution_witness :
    (createProject envConflictNoTemplate baseOpts).1.head? = some .promptOverwrite ∧
      ((createProject envConflictNoTemplate baseOpts).1.all fun e => !isWriteEvent e) = true ∧
      (createProject envConflictNoTemplate baseOpts).2 = 1 :=
  C2_conflict_check_precedes_resolution envConflictNoTemplate baseOpts rfl rfl rfl
    (fun _ => rfl)

/-- C3: with an existing destination and `force=false`, the overwrite
prompt is the first observable step (no file-system write precedes the
decision), and a declined overwrite ends the run with exit code 0 and a
trace containing no write at all. -/
theorem C3_decline_leaves_fs_unchanged (env : Env) (opts : Options)
    (hD : env.destExists = true) (hF : opts.force = false) :
    (createProject env opts).1.head? = some .promptOverwrite ∧
      (env.overwriteAnswer = false → createProject env opts = ([.promptOverwrite], 0)) := by
  have hpre : preEvents env opts = [.promptOverwrite] := by
    simp [preEvents, hD, hF]
  cases hA : env.overwriteAnswer with
  | false =>
      have hcp : createProject env opts = ([.promptOverwrite], 0) := by
        simp [createProject, hD, hF, hA, hpre]
      rw [hcp]
      exact ⟨rfl, fun _ => rfl⟩
  | true =>
      refine ⟨?_, fun h => by simp [hA] at h⟩
      cases htpl : opts.template with
      | some t =>
          by_cases hfmt : (splitDash t.data).length ≠ 2
          · simp [createProject, htpl, hfmt, hA, hpre]
          · have hhead := afterTemplate_head env opts [] t "Yes"
            simp [createProject, htpl, hfmt, hA, hpre]
            exact hhead
      | none =>
          have hhead := afterTemplate_head env opts [.promptTemplateChoices]
            (env.promptFramework.toLower ++ "-" ++ env.promptLanguage.toLower)
            env.promptCss
          simp [createProject, htpl, hA, hpre]
          exact hhead

/-- Witness for C3 at the concrete declined-overwrite environment. -/
theorem C3_decline_leaves_fs_unchanged_witness :
    (createProject envDecline baseOpts).1.head? = some .promptOverwrite ∧
      createProject envDecline baseOpts = ([.promptOverwrite], 0) :=
  ⟨(C3_decline_leaves_fs_unchanged envDecline baseOpts rfl rfl).1,
    (C3_decline_leaves_fs_unchanged envDecline baseOpts rfl rfl).2 rfl⟩

/-- C6: when bun is unavailable or `bun install` exits nonzero, exactly
one npm fallback attempt runs; a nonzero npm exit surfaces as a warning
that does not change the exit code (still 0), and the run still ends
with the success summary. -/
theorem C6_install_fallback (env : Env) (opts : Options)
    (hA : env.overwriteAnswer = true)
    (hT : opts.template = some "react-javascript")
    (hE : env.templateDirExists "react-javascript" = true)
    (hS : opts.skipInstall = false)
    (hB : env.bunAvailable = false ∨ env.bunInstallOk = false) :
    ((createProject env opts).1.countP fun e => e = Event.installNpm) = 1 ∧
      (env.npmInstallOk = false → Event.warnInstall ∈ (createProject env opts).1) ∧
      (createProject env opts).2 = 0 ∧
      (createProject env opts).1.getLast? = some .doneSummary := by
  have hfmt : ¬((splitDash ("react-javascript").data).length ≠ 2) := by decide
  have hYes : ¬(("Yes" : String) = "No") := by decide
  have hcp : createProject env opts =
      (preEvents env opts ++
          (if env.destExists then [] else [Event.mkdirProject]) ++
          [Event.copyTemplate "react-javascript"] ++
          mutatePhase env "Yes" ++
          (if opts.git then gitPhase env else []) ++
          installPhase env ++
          [Event.doneSummary], 0) := by
    simp [createProject, hT, hA, hfmt, afterTemplate, hE, hYes, hS]
  rw [hcp]
  refine ⟨?_, ?_, rfl, ?_⟩
  · simp only [List.countP_append]
    rw [countP_npm_preEvents, countP_npm_mutatePhase, countP_npm_installPhase env hB]
    have h1 : ((if env.destExists then ([] : List Event) else [Event.mkdirProject]).countP
        fun e => e = Event.installNpm) = 0 := by
      split <;> decide
    have h2 : ((if opts.git then gitPhase env else []).countP
        fun e => e = Event.installNpm) = 0 := by
      split
      · exact countP_npm_gitPhase env
      · decide
    rw [h1, h2]
    decide
  · intro hn
    have hw := warnInstall_mem_installPhase env hB hn
    simp only [List.mem_append]
    tauto
  · rw [List.getLast?_concat]

/-- Witness for C6 at the concrete bun-unavailable environment. -/
theorem C6_install_fallback_witness :
    ((createProject envNoBun optsTpl).1.countP fun e => e = Event.installNpm) = 1 ∧
      Event.warnInstall ∈ (createProject envNoBun optsTpl).1 ∧
      (createProject envNoBun optsTpl).2 = 0 ∧
      (createProject envNoBun optsTpl).1.getLast? = some .doneSummary := by
  have h := C6_install_fallback envNoBun optsTpl rfl rfl rfl rfl (Or.inl rfl)
  exact ⟨h.1, h.2.1 rfl, h.2.2.1, h.2.2.2⟩

/-- C9, counterexample: with the positional destination argument absent,
the tool issues no destination prompt and scaffolds into the implicit
default destination `"."`, refuting "prompts the user for the
destination directory". -/
theorem C9_counterexample :
    (programAction baseEnv none baseOpts).1 = "." ∧
      ((programAction baseEnv none baseOpts).2.1.all
        fun e => !(e = Event.promptDestination)) = true := by
  decide

/-- C9 (amended): when the positional destination argument is absent the
tool does not prompt: it scaffolds into the current directory `"."` with
the template forced to `react-javascript`, and no run of the CLI action
ever issues a destination prompt. -/
theorem C9_default_destination_no_prompt (env : Env) (opts : Options) :
    programAction env none opts =
        (".", createProject env { opts with template := some "react-javascript" }) ∧
      ∀ dirOpt : Option String,
        ((programAction env dirOpt opts).2.1.all
          fun e => !(e = Event.promptDestination)) = true := by
  refine ⟨rfl, fun dirOpt => ?_⟩
  cases dirOpt with
  | none => exact all_pd_createProject env opts "react-javascript"
  | some d => exact all_pd_createProject env opts (opts.template.getD "react-javascript")

/-- C10: every run through the CLI action carries a selected template
(given or defaulted), so the CSS framework is treated as included: the
trace never contains the CSS-dependency deletion or the Tailwind file
rewrites. -/
theorem C10_template_runs_keep_css (env : Env) (dirOpt : Option String)
    (opts : Options) :
    ((programAction env dirOpt opts).2.1.all
      fun e => !(e = Event.deleteCssDeps || e = Event.removeTailwindFiles)) = true := by
  cases dirOpt with
  | none => exact all_css_createProject env opts "react-javascript"
  | some d => exact all_css_createProject env opts (opts.template.getD "react-javascript")

end Waskit
